import Mathlib

/-!
# Verification of the burrow-app canvas and store logic

Shallow embedding of the canvas interaction / layout engine of the
burrow-app repository.  Numbers are modelled by `ℚ` (idealized reals; the
source computes with IEEE doubles, and the claims checked here are exact
algebraic identities or inequalities that hold over the rationals).
JavaScript objects with optional fields are modelled by structures of
`Option`-typed fields, and JavaScript object maps (`Record<string, Node>`)
by insertion-ordered association lists, mirroring the key-ordering and
spread/update semantics of JS objects.
-/

namespace Burrow

/-! ## Coordinate transform (`src/components/Canvas.tsx`) -/

/-- The container's bounding client rect (`getBoundingClientRect()`). -/
structure Rect where
  left : ℚ
  top : ℚ
  width : ℚ
  height : ℚ
deriving DecidableEq, Repr

/-- The canvas transform: motion values `x`, `y` (pan offset) and `scale`. -/
structure View where
  x : ℚ
  y : ℚ
  scale : ℚ
deriving DecidableEq, Repr

/-- `handleZoom` from `Canvas.tsx` (lines 80-131).  Computes
`nextScale = min(1.0, max(0.5, currentScale * zoomFactor))`; when the scale
changes and a client point is given it preserves the world point under the
cursor, otherwise it zooms about the container center.  The container rect
is passed explicitly (the source reads it from `containerRef`). -/
def handleZoom (rect : Rect) (v : View) (zoomFactor : ℚ)
    (client : Option (ℚ × ℚ)) : View :=
  let currentScale := v.scale
  let currentX := v.x
  let currentY := v.y
  let nextScale := min 1 (max (1/2) (currentScale * zoomFactor))
  let fromCenter : View :=
    let centerX := rect.width / 2
    let centerY := rect.height / 2
    let worldX := (centerX - currentX) / currentScale
    let worldY := (centerY - currentY) / currentScale
    { x := centerX - worldX * nextScale
      y := centerY - worldY * nextScale
      scale := nextScale }
  match client with
  | some (clientX, clientY) =>
    if nextScale ≠ currentScale then
      let relativeX := clientX - rect.left
      let relativeY := clientY - rect.top
      let worldX := (relativeX - currentX) / currentScale
      let worldY := (relativeY - currentY) / currentScale
      { x := relativeX - worldX * nextScale
        y := relativeY - worldY * nextScale
        scale := nextScale }
    else fromCenter
  | none => fromCenter

/-- `handleZoomButton` from `useZoomControls.ts` (lines 94-120): steps the
scale by `0.1` clamped to `[0.5, 1.0]`, converts the step into a factor and
delegates to the zoom handler anchored at the container center. -/
def handleZoomButton (rect : Rect) (v : View) (zoomIn : Bool) : View :=
  let centerX := rect.width / 2
  let centerY := rect.height / 2
  let currentScale := v.scale
  let zoomStep : ℚ := 1/10
  let newScale :=
    if zoomIn then min 1 (currentScale + zoomStep)
    else max (1/2) (currentScale - zoomStep)
  let zoomFactor := newScale / currentScale
  handleZoom rect v zoomFactor (some (centerX, centerY))

/-- A zoom request: either a direct `handleZoom` call (wheel / pinch paths)
or a zoom-button click. -/
inductive ZoomOp where
  | zoom (factor : ℚ) (client : Option (ℚ × ℚ))
  | button (zoomIn : Bool)
deriving DecidableEq, Repr

/-- Apply a single zoom request to the transform. -/
def applyZoomOp (rect : Rect) (v : View) : ZoomOp → View
  | .zoom f c => handleZoom rect v f c
  | .button b => handleZoomButton rect v b

/-- Apply a finite sequence of zoom requests in order. -/
def applyZoomOps (rect : Rect) (v : View) (ops : List ZoomOp) : View :=
  ops.foldl (applyZoomOp rect) v

/-! ## Node configuration (`src/config/nodeConfig.ts`) -/

/-- The four node size classes. -/
inductive NodeSize where
  | sm
  | md
  | lg
  | xl
deriving DecidableEq, Repr

/-- Width plus collapsed/expanded heights for a size class. -/
structure NodeDimensions where
  width : ℚ
  maxHeight : ℚ
  minHeight : ℚ
deriving DecidableEq, Repr

/-- The static `NODE_SIZES` lookup table. -/
def NODE_SIZES : NodeSize → NodeDimensions
  | .sm => ⟨240, 320, 140⟩
  | .md => ⟨320, 400, 140⟩
  | .lg => ⟨400, 480, 140⟩
  | .xl => ⟨480, 560, 140⟩

/-- `DEFAULT_NODE_SIZE`. -/
def DEFAULT_NODE_SIZE : NodeSize := .md

/-! ## Node and store data model (`src/types/index.ts`, `explorationStore.ts`) -/

/-- Node kind: root/explore node or generated branch node. -/
inductive NodeType where
  | explore
  | branch
deriving DecidableEq, Repr

/-- A world-space position. -/
structure Pos where
  x : ℚ
  y : ℚ
deriving DecidableEq, Repr

/-- A node as a JavaScript object.  Every field is optional: the store's
update operations build objects by spreading a possibly-`undefined` base
(`{...state.nodes[id], field}`), which can produce partial objects, so the
embedding keeps each field as an `Option`. -/
structure JSNode where
  id : Option String := none
  title : Option String := none
  content : Option String := none
  type : Option NodeType := none
  position : Option Pos := none
  size : Option NodeSize := none
  description : Option String := none
  question : Option String := none
deriving DecidableEq, Repr

/-- A parent→child connection. -/
structure Connection where
  source : String
  target : String
deriving DecidableEq, Repr

/-- JavaScript string truthiness of an optional string: `undefined` and the
empty string are falsy. -/
def strTruthy : Option String → Bool
  | none => false
  | some s => s ≠ ""

/-- `s?.length || 0`: length of an optional string, `0` when absent (an
empty string also yields `0`, which coincides with its length). -/
def optLen : Option String → ℕ
  | none => 0
  | some s => s.length

/-- JavaScript's coercion of an object key: reading `obj[x]` with
`x = undefined` uses the key `"undefined"`. -/
def jsKey : Option String → String
  | none => "undefined"
  | some s => s

/-- Insertion-ordered association list modelling `Record<string, Node>`. -/
abbrev NodeMap := List (String × JSNode)

/-- JS object update `{...m, [k]: v}`: replaces the entry in place when the
key is present (JS objects keep the original key order), appends otherwise. -/
def mapSet (m : NodeMap) (k : String) (v : JSNode) : NodeMap :=
  if m.any (fun p => p.1 == k) then
    m.map (fun p => if p.1 == k then (k, v) else p)
  else m ++ [(k, v)]

/-- JS `delete m[k]`. -/
def mapDelete (m : NodeMap) (k : String) : NodeMap :=
  m.filter (fun p => !(p.1 == k))

/-- `calculateNodeSize` (`explorationStore.ts` lines 12-27): size class from
the maximum of content length, question length and (for branch nodes)
description length, against fixed thresholds. -/
def calculateNodeSize (node : JSNode) : NodeSize :=
  let contentLength := optLen node.content
  let questionLength := optLen node.question
  let descriptionLength :=
    if node.type = some .branch then optLen node.description else 0
  let maxLength := max contentLength (max questionLength descriptionLength)
  if maxLength > 400 then .xl
  else if maxLength > 300 then .lg
  else if maxLength > 200 then .md
  else .sm

/-- Width and height of a node.  The source reads `node.position` fields
directly; nodes handled by the geometry code always carry a position, and
`posOf` totalizes the accessor with an arbitrary default for the partial
objects that never reach this code. -/
def posOf (n : JSNode) : Pos := n.position.getD ⟨0, 0⟩

/-- Effective width/height box of a node. -/
structure Size2 where
  width : ℚ
  height : ℚ
deriving DecidableEq, Repr

/-- `getNodeSize` (`explorationStore.ts` lines 30-38): dimensions from the
node's size class (computed from content when unset); height is the
expanded `maxHeight` exactly when the node has a (truthy) question. -/
def getNodeSize (node : JSNode) : Size2 :=
  let size := node.size.getD (calculateNodeSize node)
  let dimensions := NODE_SIZES size
  { width := dimensions.width
    height := if strTruthy node.question then dimensions.maxHeight
              else dimensions.minHeight }

/-- `doNodesOverlap` (`explorationStore.ts` lines 40-59) generalized over
the buffer margin; the source uses a fixed `20`.  The spec's
`overlaps(a, b, buffer)` is this test. -/
def doNodesOverlapBuf (buffer : ℚ) (node1 node2 : JSNode) : Bool :=
  let size1 := getNodeSize node1
  let size2 := getNodeSize node2
  let p1 := posOf node1
  let p2 := posOf node2
  let left1 := p1.x - size1.width / 2 - buffer
  let right1 := p1.x + size1.width / 2 + buffer
  let top1 := p1.y - size1.height / 2 - buffer
  let bottom1 := p1.y + size1.height / 2 + buffer
  let left2 := p2.x - size2.width / 2 - buffer
  let right2 := p2.x + size2.width / 2 + buffer
  let top2 := p2.y - size2.height / 2 - buffer
  let bottom2 := p2.y + size2.height / 2 + buffer
  decide (left1 < right2 ∧ right1 > left2 ∧ top1 < bottom2 ∧ bottom1 > top2)

/-- `doNodesOverlap` with the source's fixed 20px buffer. -/
def doNodesOverlap (node1 node2 : JSNode) : Bool :=
  doNodesOverlapBuf 20 node1 node2

/-- `isParentChild` (`explorationStore.ts` lines 76-81): whether a
connection joins the two node ids in either direction.  The ids come from
node `id` fields, so they are optional; `undefined` matches no string. -/
def isParentChild (connections : List Connection)
    (node1Id node2Id : Option String) : Bool :=
  connections.any (fun conn =>
    (some conn.source == node1Id && some conn.target == node2Id) ||
    (some conn.source == node2Id && some conn.target == node1Id))

/-- Left edge of a node's unbuffered box (`node.position.x - width/2`). -/
def boxLeft (n : JSNode) : ℚ := (posOf n).x - (getNodeSize n).width / 2

/-- Right edge of a node's unbuffered box. -/
def boxRight (n : JSNode) : ℚ := (posOf n).x + (getNodeSize n).width / 2

/-- Top edge of a node's unbuffered box. -/
def boxTop (n : JSNode) : ℚ := (posOf n).y - (getNodeSize n).height / 2

/-- Bottom edge of a node's unbuffered box. -/
def boxBottom (n : JSNode) : ℚ := (posOf n).y + (getNodeSize n).height / 2

/-- Horizontal overlap amount of two unbuffered boxes
(`Math.min(right1, right2) - Math.max(left1, left2)`). -/
def overlapX (n1 n2 : JSNode) : ℚ :=
  min (boxRight n1) (boxRight n2) - max (boxLeft n1) (boxLeft n2)

/-- Vertical overlap amount of two unbuffered boxes. -/
def overlapY (n1 n2 : JSNode) : ℚ :=
  min (boxBottom n1) (boxBottom n2) - max (boxTop n1) (boxTop n2)

/-- One pass of the `resolveCollisionsForNode` helper's `forEach`
(`explorationStore.ts` lines 83-115): fold over the map's values.  The
source mutates the shared `movedNode` object's position in place, so the
accumulator carries the up-to-date moved node (its size fields never
change) together with the `hasOverlaps` flag.  The box edges and overlap
amounts are the `left1`/`right1`/`overlapX`/… locals of the source,
expressed through the box helpers above. -/
def collisionPass (connections : List Connection) (nodes : NodeMap)
    (nodeId : String) (movedNode : JSNode) : JSNode × Bool :=
  nodes.foldl
    (fun acc entry =>
      let otherNode := entry.2
      if otherNode.id == some nodeId then acc
      else if isParentChild connections movedNode.id otherNode.id then acc
      else
        let moved := acc.1
        if overlapX moved otherNode > 0 ∧ overlapY moved otherNode > 0 then
          if overlapX moved otherNode < overlapY moved otherNode then
            let moveDirection : ℚ :=
              if (posOf moved).x < (posOf otherNode).x then -1 else 1
            ({ moved with position := some ⟨(posOf moved).x + moveDirection * overlapX moved otherNode, (posOf moved).y⟩ }, true)
          else
            let moveDirection : ℚ :=
              if (posOf moved).y < (posOf otherNode).y then -1 else 1
            ({ moved with position := some ⟨(posOf moved).x, (posOf moved).y + moveDirection * overlapY moved otherNode⟩ }, true)
        else acc)
    (movedNode, false)

/-- The `while (hasOverlaps && iteration < maxIterations)` loop of the
`resolveCollisionsForNode` helper (`explorationStore.ts` lines 61-117),
with the remaining iteration budget as fuel (the source's
`maxIterations = 10`).  Each iteration re-reads the moved node, runs one
pass, writes the mutated node back, and repeats while an overlap was
seen. -/
def resolveCollisionsLoop (connections : List Connection) (nodeId : String) :
    Nat → NodeMap → NodeMap
  | 0, nodes => nodes
  | Nat.succ fuel, nodes =>
    match nodes.lookup nodeId with
    | none => nodes
    | some movedNode =>
      let res := collisionPass connections nodes nodeId movedNode
      let nodes1 := mapSet nodes nodeId res.1
      if res.2 then resolveCollisionsLoop connections nodeId fuel nodes1
      else nodes1

/-- The store state.  The `explorations` mirror and the `updatedAt`
timestamps duplicate `nodes`/`connections`/`activeNodeId` per exploration
and carry wall-clock time, so the embedding keeps the single current
exploration's data that the verified operations read and write. -/
structure StoreState where
  nodes : NodeMap
  connections : List Connection
  activeNodeId : String
  draggingNodeId : Option String := none
deriving DecidableEq, Repr

/-- `{...state.nodes[nodeId], content}`: spreading a possibly-`undefined`
base object and overriding one field. -/
def spreadContent (base : Option JSNode) (content : String) : JSNode :=
  match base with
  | some n => { n with content := some content }
  | none => { content := some content }

/-- `updateNodeContent` (`explorationStore.ts` lines 230-256). -/
def updateNodeContent (s : StoreState) (nodeId content : String) : StoreState :=
  { s with nodes := mapSet s.nodes nodeId (spreadContent (s.nodes.lookup nodeId) content) }

/-- `{...state.nodes[nodeId], question}`. -/
def spreadQuestion (base : Option JSNode) (question : String) : JSNode :=
  match base with
  | some n => { n with question := some question }
  | none => { question := some question }

/-- `updateNodeQuestion` (`explorationStore.ts` lines 258-284). -/
def updateNodeQuestion (s : StoreState) (nodeId question : String) : StoreState :=
  { s with nodes := mapSet s.nodes nodeId (spreadQuestion (s.nodes.lookup nodeId) question) }

/-- `{...state.nodes[nodeId], position}`. -/
def spreadPosition (base : Option JSNode) (position : Pos) : JSNode :=
  match base with
  | some n => { n with position := some position }
  | none => { position := some position }

/-- `updateNodePosition` (`explorationStore.ts` lines 286-305). -/
def updateNodePosition (s : StoreState) (nodeId : String) (position : Pos) :
    StoreState :=
  { s with nodes := mapSet s.nodes nodeId (spreadPosition (s.nodes.lookup nodeId) position) }

/-- `addBranchNodes` (`explorationStore.ts` lines 307-354).  Reading
`parentNode.position.y` throws a `TypeError` when the parent (or its
position) is missing, modelled by `none`.  Each branch node is positioned
in a vertical column at `x + 700`, centered on the parent's `y` with 160px
spacing, given a computed size class, inserted into the map, and connected
to the parent. -/
def addBranchNodes (s : StoreState) (parentId : String)
    (branchNodes : List JSNode) : Option StoreState :=
  match (s.nodes.lookup parentId).bind (fun p => p.position) with
  | none => none
  | some ppos =>
    let horizontalOffset : ℚ := 700
    let verticalSpacing : ℚ := 160
    let totalNodes : ℚ := branchNodes.length
    let totalHeight := (totalNodes - 1) * verticalSpacing
    let startY := ppos.y - totalHeight / 2
    let positioned := branchNodes.enum.map (fun q =>
      { q.2 with
          position := some ⟨ppos.x + horizontalOffset,
                            startY + (q.1 : ℚ) * verticalSpacing⟩
          size := some (calculateNodeSize q.2) })
    let newNodes := positioned.foldl (fun m node => mapSet m (jsKey node.id) node) s.nodes
    let newConnections :=
      s.connections ++ positioned.map (fun node => ⟨parentId, jsKey node.id⟩)
    some { s with nodes := newNodes, connections := newConnections }

/-- `deleteNode` (`explorationStore.ts` lines 419-455): refuses to delete
the last node; otherwise removes the key and, when the active node was
deleted, activates the first remaining key.  Connections are untouched. -/
def deleteNode (s : StoreState) (nodeId : String) : StoreState :=
  if s.nodes.length ≤ 1 then s
  else
    let updatedNodes := mapDelete s.nodes nodeId
    let updatedActiveNodeId :=
      if s.activeNodeId == nodeId then jsKey (updatedNodes.head?.map (fun p => p.1))
      else s.activeNodeId
    { s with nodes := updatedNodes, activeNodeId := updatedActiveNodeId }

/-- `repositionOverlappingNodes` (`explorationStore.ts` lines 506-627):
when a node expands, every other node whose box intersects the expanded
node's buffered box is pushed out along one axis — vertically when
`|dy| ≤ |dx|`, horizontally otherwise — by a shift computed from the
expanded node's dimensions plus the buffer. -/
def repositionOverlappingNodes (s : StoreState) (expandedNodeId : String)
    (expanded : Bool) : StoreState :=
  if !expanded then s
  else
    match s.nodes.lookup expandedNodeId with
    | none => s
    | some expandedNode =>
      let expandedDimensions := getNodeSize expandedNode
      let buffer : ℚ := 40
      let ep := posOf expandedNode
      let eLeft := ep.x - expandedDimensions.width / 2 - buffer
      let eRight := ep.x + expandedDimensions.width / 2 + buffer
      let eTop := ep.y - expandedDimensions.height / 2 - buffer
      let eBottom := ep.y + expandedDimensions.height / 2 + buffer
      let nodesToReposition := (s.nodes.map (fun p => p.2)).filter (fun node =>
        if node.id == some expandedNodeId then false
        else
          let nodeDimensions := getNodeSize node
          let np := posOf node
          let nLeft := np.x - nodeDimensions.width / 2
          let nRight := np.x + nodeDimensions.width / 2
          let nTop := np.y - nodeDimensions.height / 2
          let nBottom := np.y + nodeDimensions.height / 2
          decide ((nRight > eLeft ∧ nLeft < eRight) ∧
                  (nBottom > eTop ∧ nTop < eBottom)))
      let nodes1 := nodesToReposition.foldl
        (fun m node =>
          let np := posOf node
          let dx := np.x - ep.x
          let dy := np.y - ep.y
          if |dy| ≤ |dx| then
            let verticalShift :=
              if dy ≥ 0 then (eBottom - (np.y - expandedDimensions.height / 2)) + buffer
              else -((np.y + expandedDimensions.height / 2) - eTop) - buffer
            mapSet m (jsKey node.id) { node with position := some ⟨np.x, np.y + verticalShift⟩ }
          else
            let horizontalShift :=
              if dx ≥ 0 then (eRight - (np.x - expandedDimensions.width / 2)) + buffer
              else -((np.x + expandedDimensions.width / 2) - eLeft) - buffer
            mapSet m (jsKey node.id) { node with position := some ⟨np.x + horizontalShift, np.y⟩ })
        s.nodes
      { s with nodes := nodes1 }

/-- The `resolveCollisionsForNode` store action (`explorationStore.ts`
lines 630-647): runs the collision loop on the current nodes with the
store's connections. -/
def resolveCollisionsForNode (s : StoreState) (nodeId : String) : StoreState :=
  { s with nodes := resolveCollisionsLoop s.connections nodeId 10 s.nodes }

/-- The default root node of a fresh exploration
(`createDefaultExploration`, `explorationStore.ts` lines 168-186). -/
def exploreNode : JSNode :=
  { id := some "explore"
    content := some "Start your exploration here..."
    type := some .explore
    position := some ⟨500, 300⟩
    size := some DEFAULT_NODE_SIZE }

/-- A fresh single-node store as created on first load. -/
def sOne : StoreState :=
  { nodes := [("explore", exploreNode)]
    connections := []
    activeNodeId := "explore" }

/-- Size-class rule as the spec describes it (amended to the source's
inputs): thresholds applied to the maximum of the content length, the
question length and — for branch nodes — the description length. -/
def sizeClassOfLengths (contentLen questionLen descriptionLen : ℕ) : NodeSize :=
  let maxLength := max contentLen (max questionLen descriptionLen)
  if maxLength > 400 then .xl
  else if maxLength > 300 then .lg
  else if maxLength > 200 then .md
  else .sm

/-- Root node `R` at `(500, 300)` for the branch-generation scenario. -/
def rootR : JSNode :=
  { id := some "R"
    content := some "root"
    type := some .explore
    position := some ⟨500, 300⟩
    size := some .sm }

/-- Store holding only the root `R`. -/
def sR : StoreState :=
  { nodes := [("R", rootR)]
    connections := []
    activeNodeId := "R" }

/-- Branch node `A` of the scenario. -/
def branchA : JSNode :=
  { id := some "A", title := some "A", content := some "a", type := some .branch }

/-- Branch node `B` of the scenario. -/
def branchB : JSNode :=
  { id := some "B", title := some "B", content := some "b", type := some .branch }

/-- Branch node `C` of the scenario. -/
def branchC : JSNode :=
  { id := some "C", title := some "C", content := some "c", type := some .branch }

/-- A 201-character question. -/
def longQuestion : String := String.mk (List.replicate 201 'a')

/-- A branch node with empty content but a long question: its computed size
class is driven by the question, not the content. -/
def questionOnlyNode : JSNode :=
  { id := some "n1"
    content := some ""
    question := some longQuestion
    type := some .branch }

/-- Node `X` of the overlap-push scenario: `md` at `(0, 0)` with a
question, so its effective (expanded) box is 320×400. -/
def nodeX : JSNode :=
  { id := some "X"
    content := some "x"
    type := some .explore
    position := some ⟨0, 0⟩
    size := some .md
    question := some "q" }

/-- Node `Y` of the overlap-push scenario: `sm` at `(0, 150)` with no
question, so its box is 240×140, inside `X`'s expanded bounds. -/
def nodeY : JSNode :=
  { id := some "Y"
    content := some "y"
    type := some .branch
    position := some ⟨0, 150⟩
    size := some .sm }

/-- Store holding `X` and `Y` for the overlap-push scenario. -/
def sXY : StoreState :=
  { nodes := [("X", nodeX), ("Y", nodeY)]
    connections := []
    activeNodeId := "X" }

/-! ## Gesture handlers (`Canvas.tsx`, `useCanvasGestures.ts`) -/

/-- A wheel event's fields used by the zoom/pan handlers. -/
structure WheelEvent where
  deltaX : ℚ
  deltaY : ℚ
  clientX : ℚ
  clientY : ℚ
  ctrlKey : Bool
  metaKey : Bool
deriving DecidableEq, Repr

/-- Canvas-side state: the transform plus the id of the node currently
being dragged, if any. -/
structure CanvasState where
  view : View
  draggingNodeId : Option String
deriving DecidableEq, Repr

/-- `handlePan` (`Canvas.tsx` lines 175-230 region): skips panning while a
node drag is in progress (`if (draggingNodeId) return`), otherwise offsets
the pan values. -/
def handlePan (c : CanvasState) (dx dy : ℚ) : CanvasState :=
  if strTruthy c.draggingNodeId then c
  else { c with view := { c.view with x := c.view.x + dx, y := c.view.y + dy } }

/-- `handleWheelZoom` (`Canvas.tsx`): returns untouched while dragging a
node; otherwise derives a zoom factor from the wheel delta (finer for
ctrl/meta pinch events) and delegates to `handleZoom` at the cursor. -/
def handleWheelZoom (rect : Rect) (c : CanvasState) (e : WheelEvent) : CanvasState :=
  if strTruthy c.draggingNodeId then c
  else
    let zoomFactor :=
      if e.ctrlKey || e.metaKey then
        let direction : ℚ := if e.deltaY < 0 then 1 else -1
        let magnitude := min (|e.deltaY| / 100) (1/5)
        1 + direction * magnitude * (3/10)
      else
        let direction : ℚ := if e.deltaY < 0 then 1 else -1
        1 + direction * (1/20)
    { c with view := handleZoom rect c.view zoomFactor (some (e.clientX, e.clientY)) }

/-- The drag gesture's memo: pan values captured at gesture start. -/
structure DragMemo where
  startX : ℚ
  startY : ℚ
deriving DecidableEq, Repr

/-- `onDrag` of `useCanvasGestures.ts` (lines 86-99 and onward): returns
the memo untouched while a node drag is in progress or when the event
target is a node element; otherwise records the start pan on the first
event and sets pan to `start + movement`.  The release-time inertia
animation only retargets future spring values and is not part of the
immediate state write modelled here. -/
def onDragGesture (c : CanvasState) (targetIsNode first : Bool) (mx my : ℚ)
    (memo : DragMemo) : CanvasState × DragMemo :=
  if strTruthy c.draggingNodeId then (c, memo)
  else if targetIsNode then (c, memo)
  else
    let memo1 := if first then ({ startX := c.view.x, startY := c.view.y } : DragMemo)
                 else memo
    ({ c with view := { c.view with x := memo1.startX + mx, y := memo1.startY + my } },
     memo1)

/-- `onPinch` of `useCanvasGestures.ts` (lines 153-159): routes the pinch
offset scale and origin straight to the zoom handler.  The source has no
`draggingNodeId` guard on this path. -/
def onPinchGesture (rect : Rect) (c : CanvasState) (s clientX clientY : ℚ) :
    CanvasState :=
  { c with view := handleZoom rect c.view s (some (clientX, clientY)) }

/-! ## Connection curves (`NodeConnection.tsx`, `Connections.tsx`) -/

/-- IEEE-double-style extended number: a finite rational, the two
infinities, or `NaN`.  Signed zero is not distinguished; the curve
computations below never produce a negative zero whose sign matters. -/
inductive JSNum where
  | num (q : ℚ)
  | inf
  | ninf
  | nan
deriving DecidableEq, Repr

/-- A finite (non-`NaN`, non-infinite) value. -/
def JSNum.isFinite : JSNum → Bool
  | num _ => true
  | _ => false

/-- Negation. -/
def jsNeg : JSNum → JSNum
  | .num a => .num (-a)
  | .inf => .ninf
  | .ninf => .inf
  | .nan => .nan

/-- Addition with IEEE propagation (`∞ + (-∞) = NaN`). -/
def jsAdd : JSNum → JSNum → JSNum
  | .nan, _ => .nan
  | _, .nan => .nan
  | .num a, .num b => .num (a + b)
  | .inf, .ninf => .nan
  | .ninf, .inf => .nan
  | .inf, _ => .inf
  | _, .inf => .inf
  | .ninf, _ => .ninf
  | _, .ninf => .ninf

/-- Subtraction as addition of the negation. -/
def jsSub (a b : JSNum) : JSNum := jsAdd a (jsNeg b)

/-- Multiplication with IEEE propagation (`∞ · 0 = NaN`). -/
def jsMul : JSNum → JSNum → JSNum
  | .nan, _ => .nan
  | _, .nan => .nan
  | .num a, .num b => .num (a * b)
  | .inf, .num b => if b = 0 then .nan else if 0 < b then .inf else .ninf
  | .num a, .inf => if a = 0 then .nan else if 0 < a then .inf else .ninf
  | .ninf, .num b => if b = 0 then .nan else if 0 < b then .ninf else .inf
  | .num a, .ninf => if a = 0 then .nan else if 0 < a then .ninf else .inf
  | .inf, .inf => .inf
  | .inf, .ninf => .ninf
  | .ninf, .inf => .ninf
  | .ninf, .ninf => .inf

/-- Division: a nonzero finite number divided by zero gives a signed
infinity, `0 / 0` gives `NaN`, and a finite number divided by an infinity
gives zero. -/
def jsDiv : JSNum → JSNum → JSNum
  | .nan, _ => .nan
  | _, .nan => .nan
  | .num a, .num b =>
    if b = 0 then (if a = 0 then .nan else if 0 < a then .inf else .ninf)
    else .num (a / b)
  | .inf, .num b => if 0 ≤ b then .inf else .ninf
  | .ninf, .num b => if 0 ≤ b then .ninf else .inf
  | .num _, .inf => .num 0
  | .num _, .ninf => .num 0
  | .inf, .inf => .nan
  | .inf, .ninf => .nan
  | .ninf, .inf => .nan
  | .ninf, .ninf => .nan

/-- `Math.min`: `NaN` poisons, otherwise the usual order with
`-∞ < finite < ∞`. -/
def jsMin : JSNum → JSNum → JSNum
  | .nan, _ => .nan
  | _, .nan => .nan
  | .num a, .num b => .num (min a b)
  | .ninf, _ => .ninf
  | _, .ninf => .ninf
  | .inf, b => b
  | a, .inf => a

/-- `Math.sqrt`: negative arguments give `NaN`, `∞ → ∞`.  The value on a
finite nonnegative rational is approximated by `Rat.sqrt` (the exact square
root of a rational is irrational in general); the theorems below use only
that the result is finite and nonnegative, which `Rat.sqrt` shares with the
IEEE square root. -/
def jsSqrt : JSNum → JSNum
  | .nan => .nan
  | .ninf => .nan
  | .inf => .inf
  | .num a => if a < 0 then .nan else .num (Rat.sqrt a)

/-- The curvature factor and Bezier control point of a connection. -/
structure CurvePoints where
  factor : JSNum
  controlX : JSNum
  controlY : JSNum
deriving DecidableEq, Repr

/-- `NodeConnection` curve computation (`NodeConnection.tsx` lines 33-53):
midpoint, distance, curvature `min(0.2, 30 / distance)`, control point
offset perpendicular to the segment. -/
def nodeConnectionCurve (startX startY endX endY : ℚ) : CurvePoints :=
  let midX := (startX + endX) / 2
  let midY := (startY + endY) / 2
  let distance := jsSqrt (.num ((endX - startX) ^ 2 + (endY - startY) ^ 2))
  let curveFactor := jsMin (.num (1/5)) (jsDiv (.num 30) distance)
  let dx := endX - startX
  let dy := endY - startY
  { factor := curveFactor
    controlX := jsSub (.num midX) (jsMul (.num dy) curveFactor)
    controlY := jsAdd (.num midY) (jsMul (.num dx) curveFactor) }

/-- `ConnectionLine` curve computation (`Connections.tsx` lines 96-130):
anchor points offset by half the node width plus 24px, distance, curvature
`min(0.3, 40 / distance)`, perpendicular control point. -/
def connectionLineCurve (sourceType targetType : NodeType)
    (sx sy tx ty : ℚ) : CurvePoints :=
  let sourceWidth : ℚ := if sourceType = .explore then 384 else 240
  let targetWidth : ℚ := if targetType = .explore then 384 else 240
  let anchorOffset : ℚ := 24
  let sourceX := sx + (sourceWidth / 2 + anchorOffset)
  let sourceY := sy
  let targetX := tx - (targetWidth / 2 + anchorOffset)
  let targetY := ty
  let dx := targetX - sourceX
  let dy := targetY - sourceY
  let distance := jsSqrt (.num (dx * dx + dy * dy))
  let midX := (sourceX + targetX) / 2
  let midY := (sourceY + targetY) / 2
  let curveFactor := jsMin (.num (3/10)) (jsDiv (.num 40) distance)
  { factor := curveFactor
    controlX := jsSub (.num midX) (jsMul (.num dy) curveFactor)
    controlY := jsAdd (.num midY) (jsMul (.num dx) curveFactor) }

/-! ## Derived geometry used to state the collision-resolution claim -/

/-- Neither of the intervals `[l1, r1]`, `[l2, r2]` contains the other. -/
def NoContain (l1 r1 l2 r2 : ℚ) : Prop :=
  ¬(l1 ≤ l2 ∧ r2 ≤ r1) ∧ ¬(l2 ≤ l1 ∧ r1 ≤ r2)

/-- The single push the resolver applies to the moved node `a` against `b`:
along the smaller-overlap axis (vertical on ties), by exactly that overlap
amount, signed away from `b`'s center. -/
def pushedPos (a b : JSNode) : Pos :=
  if overlapX a b < overlapY a b then
    ⟨(posOf a).x + (if (posOf a).x < (posOf b).x then (-1 : ℚ) else 1) * overlapX a b,
     (posOf a).y⟩
  else
    ⟨(posOf a).x,
     (posOf a).y + (if (posOf a).y < (posOf b).y then (-1 : ℚ) else 1) * overlapY a b⟩

/-- Moved node of the collision counterexample: `xl` with a question
(480×560) at the origin. -/
def aC3 : JSNode :=
  { id := some "a"
    content := some "c"
    type := some .explore
    position := some ⟨0, 0⟩
    size := some .xl
    question := some "q" }

/-- Other node of the collision counterexample: `sm` with a question
(240×320) at `(10, 0)`, horizontally strictly inside `aC3`'s box. -/
def bC3 : JSNode :=
  { id := some "b"
    content := some "d"
    type := some .branch
    position := some ⟨10, 0⟩
    size := some .sm
    question := some "q" }

/-- Two-node store for the collision counterexample. -/
def sC3 : StoreState :=
  { nodes := [("a", aC3), ("b", bC3)]
    connections := []
    activeNodeId := "a" }

/-- Moved node of the collision witness: `md`, no question (320×140), at
the origin. -/
def aW : JSNode :=
  { id := some "a"
    content := some "c"
    type := some .explore
    position := some ⟨0, 0⟩
    size := some .md }

/-- Other node of the collision witness: `md`, no question, at `(300, 10)`;
the horizontal overlap (20) is smaller than the vertical one (130) and
neither horizontal interval contains the other. -/
def bW : JSNode :=
  { id := some "b"
    content := some "d"
    type := some .branch
    position := some ⟨300, 10⟩
    size := some .md }

/-- Two-node store for the collision witness. -/
def sW : StoreState :=
  { nodes := [("a", aW), ("b", bW)]
    connections := []
    activeNodeId := "a" }

/-- What the Node Store operations actually do when `nodeId` is absent from
the nodes map: the collision/repositioning operations and `deleteNode` are
no-ops, while the field updates insert a phantom entry holding only the
updated field, and `addBranchNodes` fails (the source throws a `TypeError`
dereferencing the missing parent) instead of no-opping. -/
def missingNodeOutcome (s : StoreState) (nodeId content question : String)
    (position : Pos) (branches : List JSNode) (b : Bool) : Prop :=
  resolveCollisionsForNode s nodeId = s ∧
  repositionOverlappingNodes s nodeId b = s ∧
  deleteNode s nodeId = s ∧
  updateNodeContent s nodeId content
    = { s with nodes := s.nodes ++ [(nodeId, { content := some content })] } ∧
  updateNodeQuestion s nodeId question
    = { s with nodes := s.nodes ++ [(nodeId, { question := some question })] } ∧
  updateNodePosition s nodeId position
    = { s with nodes := s.nodes ++ [(nodeId, { position := some position })] } ∧
  addBranchNodes s nodeId branches = none

end Burrow

namespace Burrow

/-! ## Theorems: zoom focus preservation and scale bounds -/

/-- The clamped scale is always at least `1/2`. -/
lemma half_le_clamp (z : ℚ) : 1/2 ≤ min 1 (max (1/2) z) :=
  le_min (by norm_num) (le_max_left _ _)

/-- The clamped scale is always at most `1`. -/
lemma clamp_le_one (z : ℚ) : min 1 (max (1/2) z) ≤ 1 :=
  min_le_left _ _

/-- Whatever the inputs, a `handleZoom` call leaves the scale in `[1/2, 1]`. -/
lemma handleZoom_scale_mem (rect : Rect) (v : View) (f : ℚ)
    (c : Option (ℚ × ℚ)) :
    1/2 ≤ (handleZoom rect v f c).scale ∧ (handleZoom rect v f c).scale ≤ 1 := by
  unfold handleZoom
  rcases c with _ | ⟨cx, cy⟩ <;> simp only
  · exact ⟨half_le_clamp _, clamp_le_one _⟩
  · split <;> exact ⟨half_le_clamp _, clamp_le_one _⟩

/-- C1.  Focus-preserving zoom: for any starting transform with scale in the
configured bounds `[0.5, 1.0]`, any zoom factor, and any focus point given
in client coordinates, `handleZoom` keeps the world point under the focus
fixed: `(focus - pan') / scale' = (focus - pan) / scale` componentwise,
where the focus is taken relative to the container rect. -/
theorem zoom_focus_invariant (rect : Rect) (v : View) (f cx cy : ℚ)
    (hlo : 1/2 ≤ v.scale) (hhi : v.scale ≤ 1) :
    ((cx - rect.left) - (handleZoom rect v f (some (cx, cy))).x) /
        (handleZoom rect v f (some (cx, cy))).scale
      = ((cx - rect.left) - v.x) / v.scale ∧
    ((cy - rect.top) - (handleZoom rect v f (some (cx, cy))).y) /
        (handleZoom rect v f (some (cx, cy))).scale
      = ((cy - rect.top) - v.y) / v.scale := by
  have hs0 : v.scale ≠ 0 := by positivity
  have hn0 : min 1 (max (1/2) (v.scale * f)) ≠ 0 := by
    have := half_le_clamp (v.scale * f)
    positivity
  unfold handleZoom
  simp only
  split
  · constructor <;> (field_simp; ring)
  · rename_i hEq
    have hsc : min 1 (max (1/2) (v.scale * f)) = v.scale := not_ne_iff.mp hEq
    constructor <;>
      · simp only [hsc]
        field_simp
        ring

/-- Witness for `zoom_focus_invariant` at the concrete transform
`(pan, scale) = ((10, 20), 1)`, factor `1/2`, focus `(100, 50)`. -/
theorem zoom_focus_invariant_witness :
    ((1 : ℚ)/2 ≤ (⟨10, 20, 1⟩ : View).scale ∧ (⟨10, 20, 1⟩ : View).scale ≤ 1) ∧
    (((100 - (⟨0, 0, 800, 600⟩ : Rect).left) -
          (handleZoom ⟨0, 0, 800, 600⟩ ⟨10, 20, 1⟩ (1/2) (some (100, 50))).x) /
        (handleZoom ⟨0, 0, 800, 600⟩ ⟨10, 20, 1⟩ (1/2) (some (100, 50))).scale
      = ((100 - (⟨0, 0, 800, 600⟩ : Rect).left) - (⟨10, 20, 1⟩ : View).x) /
        (⟨10, 20, 1⟩ : View).scale ∧
     ((50 - (⟨0, 0, 800, 600⟩ : Rect).top) -
          (handleZoom ⟨0, 0, 800, 600⟩ ⟨10, 20, 1⟩ (1/2) (some (100, 50))).y) /
        (handleZoom ⟨0, 0, 800, 600⟩ ⟨10, 20, 1⟩ (1/2) (some (100, 50))).scale
      = ((50 - (⟨0, 0, 800, 600⟩ : Rect).top) - (⟨10, 20, 1⟩ : View).y) /
        (⟨10, 20, 1⟩ : View).scale) :=
  ⟨⟨by norm_num, by norm_num⟩,
    zoom_focus_invariant ⟨0, 0, 800, 600⟩ ⟨10, 20, 1⟩ (1/2) 100 50
      (by norm_num) (by norm_num)⟩

/-- Any single zoom request leaves the scale in `[1/2, 1]`. -/
lemma applyZoomOp_scale_mem (rect : Rect) (v : View) (op : ZoomOp) :
    1/2 ≤ (applyZoomOp rect v op).scale ∧ (applyZoomOp rect v op).scale ≤ 1 := by
  cases op with
  | zoom f c => exact handleZoom_scale_mem rect v f c
  | button b =>
    simpa [applyZoomOp, handleZoomButton] using
      handleZoom_scale_mem rect v
        ((if b then min 1 (v.scale + 1/10) else max (1/2) (v.scale - 1/10)) / v.scale)
        (some (rect.width / 2, rect.height / 2))

/-- C5.  Scale bounds: starting from a scale within the configured bounds
`[0.5, 1.0]`, every finite sequence of zoom requests (direct zooms with any
factor and focus, or zoom-button clicks) keeps the scale within the bounds;
since the sequence is arbitrary, the bound holds after each call. -/
theorem scale_bounds (rect : Rect) (v : View) (ops : List ZoomOp)
    (hlo : 1/2 ≤ v.scale) (hhi : v.scale ≤ 1) :
    1/2 ≤ (applyZoomOps rect v ops).scale ∧ (applyZoomOps rect v ops).scale ≤ 1 := by
  induction ops generalizing v with
  | nil => exact ⟨hlo, hhi⟩
  | cons op rest ih =>
    have hstep := applyZoomOp_scale_mem rect v op
    simpa [applyZoomOps, List.foldl_cons] using ih (applyZoomOp rect v op) hstep.1 hstep.2

/-- Witness for `scale_bounds`: a concrete three-step zoom sequence from
scale `1`. -/
theorem scale_bounds_witness :
    ((1 : ℚ)/2 ≤ (⟨0, 0, 1⟩ : View).scale ∧ (⟨0, 0, 1⟩ : View).scale ≤ 1) ∧
    (1/2 ≤ (applyZoomOps ⟨0, 0, 800, 600⟩ ⟨0, 0, 1⟩
        [.button false, .zoom 5 none, .zoom (1/100) (some (3, 4)), .button true]).scale ∧
      (applyZoomOps ⟨0, 0, 800, 600⟩ ⟨0, 0, 1⟩
        [.button false, .zoom 5 none, .zoom (1/100) (some (3, 4)), .button true]).scale ≤ 1) :=
  ⟨⟨by norm_num, by norm_num⟩,
    scale_bounds ⟨0, 0, 800, 600⟩ ⟨0, 0, 1⟩
      [.button false, .zoom 5 none, .zoom (1/100) (some (3, 4)), .button true]
      (by norm_num) (by norm_num)⟩

/-! ## Theorems: missing-node semantics, last-node deletion -/

/-- When `lookup` misses, no entry's key matches. -/
lemma lookup_none_forall {m : NodeMap} {k : String}
    (h : m.lookup k = none) : ∀ p ∈ m, (p.1 == k) = false := by
  induction m with
  | nil => simp
  | cons hd tl ih =>
    obtain ⟨k1, v1⟩ := hd
    by_cases hk : k = k1
    · subst hk
      simp [List.lookup_cons] at h
    · have hkb : (k == k1) = false := beq_false_of_ne hk
      rw [List.lookup_cons, hkb] at h
      intro p hp
      rw [List.mem_cons] at hp
      rcases hp with hp | hp
      · subst hp
        exact beq_false_of_ne (fun hh => hk hh.symm)
      · exact ih h p hp

/-- Updating a key that is not in the map appends it at the end. -/
lemma mapSet_of_lookup_none {m : NodeMap} {k : String} (v : JSNode)
    (h : m.lookup k = none) : mapSet m k v = m ++ [(k, v)] := by
  have hany : m.any (fun p => p.1 == k) = false := by
    simp only [List.any_eq_false]
    intro p hp
    simp [lookup_none_forall h p hp]
  simp [mapSet, hany]

/-- Deleting a key that is not in the map keeps the map intact. -/
lemma mapDelete_of_lookup_none {m : NodeMap} {k : String}
    (h : m.lookup k = none) : mapDelete m k = m := by
  unfold mapDelete
  rw [List.filter_eq_self]
  intro p hp
  simp [lookup_none_forall h p hp]

/-- C2 (amended).  Operations on a node id absent from the nodes map:
`resolveCollisionsForNode` and `repositionOverlappingNodes` are no-ops,
`deleteNode` is a no-op (the absent id cannot be the active node of a
well-formed store), but `updateNodeContent` / `updateNodeQuestion` /
`updateNodePosition` insert a phantom entry holding only the updated field,
and `addBranchNodes` with the absent id as parent fails with a `TypeError`
rather than no-opping. -/
theorem missing_node_semantics (s : StoreState) (nodeId content question : String)
    (position : Pos) (branches : List JSNode) (b : Bool)
    (hmiss : s.nodes.lookup nodeId = none) (hact : s.activeNodeId ≠ nodeId) :
    missingNodeOutcome s nodeId content question position branches b := by
  have hbeq : (s.activeNodeId == nodeId) = false := by
    simpa using hact
  refine ⟨?_, ?_, ?_, ?_, ?_, ?_, ?_⟩
  · simp [resolveCollisionsForNode, resolveCollisionsLoop, hmiss]
  · cases b <;> simp [repositionOverlappingNodes, hmiss]
  · by_cases hlen : s.nodes.length ≤ 1
    · simp [deleteNode, hlen]
    · simp [deleteNode, hlen, mapDelete_of_lookup_none hmiss, hbeq]
  · simp [updateNodeContent, hmiss, spreadContent, mapSet_of_lookup_none _ hmiss]
  · simp [updateNodeQuestion, hmiss, spreadQuestion, mapSet_of_lookup_none _ hmiss]
  · simp [updateNodePosition, hmiss, spreadPosition, mapSet_of_lookup_none _ hmiss]
  · simp [addBranchNodes, hmiss]

/-- Counterexample to C2 as stated: on the fresh store, updating the
position of the nonexistent id `"ghost"` does not leave the store
unchanged — it creates a phantom entry. -/
theorem missing_node_counterexample :
    sOne.nodes.lookup "ghost" = none ∧
    updateNodePosition sOne "ghost" ⟨5, 5⟩ ≠ sOne := by
  constructor
  · decide
  · decide

/-- Witness for `missing_node_semantics` on the fresh store and the absent
id `"ghost"`. -/
theorem missing_node_semantics_witness :
    (sOne.nodes.lookup "ghost" = none ∧ sOne.activeNodeId ≠ "ghost") ∧
    missingNodeOutcome sOne "ghost" "c" "q" ⟨5, 5⟩ [] true :=
  ⟨⟨by decide, by decide⟩,
    missing_node_semantics sOne "ghost" "c" "q" ⟨5, 5⟩ [] true
      (by decide) (by decide)⟩

/-- C8.  Deleting from a store whose node map has exactly one node is a
complete no-op, whatever id is passed. -/
theorem deleteNode_last_noop (s : StoreState) (nodeId : String)
    (h : s.nodes.length = 1) : deleteNode s nodeId = s := by
  simp [deleteNode, h]

/-- Witness for `deleteNode_last_noop` on the fresh single-node store. -/
theorem deleteNode_last_noop_witness :
    sOne.nodes.length = 1 ∧ deleteNode sOne "explore" = sOne :=
  ⟨by decide, deleteNode_last_noop sOne "explore" (by decide)⟩

/-! ## Theorems: branch layout and size classes -/

/-- Looking up a different key in a singleton map misses. -/
lemma lookup_singleton_ne {k k1 : String} (v : JSNode) (h : k ≠ k1) :
    List.lookup k [(k1, v)] = none := by
  rw [List.lookup_cons, beq_false_of_ne h]
  rfl

/-- A key missing from both halves is missing from the concatenation. -/
lemma lookup_append_none {m1 m2 : NodeMap} {k : String}
    (h1 : m1.lookup k = none) (h2 : m2.lookup k = none) :
    (m1 ++ m2).lookup k = none := by
  induction m1 with
  | nil => simpa using h2
  | cons hd tl ih =>
    obtain ⟨k1, v1⟩ := hd
    by_cases hk : k = k1
    · subst hk
      simp [List.lookup_cons] at h1
    · have hkb : (k == k1) = false := beq_false_of_ne hk
      rw [List.cons_append, List.lookup_cons, hkb]
      rw [List.lookup_cons, hkb] at h1
      exact ih h1

/-- Folding `{...m, [key n]: n}` over nodes with fresh, pairwise-distinct
keys appends them in order. -/
lemma foldl_mapSet_append (l : List JSNode) (m : NodeMap)
    (hfresh : ∀ n ∈ l, m.lookup (jsKey n.id) = none)
    (hnodup : (l.map (fun n => jsKey n.id)).Nodup) :
    l.foldl (fun acc node => mapSet acc (jsKey node.id) node) m
      = m ++ l.map (fun n => (jsKey n.id, n)) := by
  induction l generalizing m with
  | nil => simp
  | cons hd tl ih =>
    rw [List.map_cons, List.nodup_cons] at hnodup
    have hfr : ∀ n ∈ tl, (m ++ [(jsKey hd.id, hd)]).lookup (jsKey n.id) = none := by
      intro n hn
      apply lookup_append_none (hfresh n (by simp [hn]))
      apply lookup_singleton_ne
      intro he
      exact hnodup.1 (he ▸ List.mem_map_of_mem (fun n => jsKey n.id) hn)
    rw [List.foldl_cons, mapSet_of_lookup_none hd (hfresh hd (by simp)),
      ih (m ++ [(jsKey hd.id, hd)]) hfr hnodup.2]
    simp

/-- Canonical form of `addBranchNodes` on a present parent and fresh,
distinct branch ids: child `i` is appended with position
`(parent.x + 700, parent.y - (k-1)·160/2 + i·160)` and a computed size
class, and a parent→child connection is appended per branch, in order. -/
lemma addBranchNodes_spec (s : StoreState) (parentId : String) (parent : JSNode)
    (ppos : Pos) (branches : List JSNode)
    (hp : s.nodes.lookup parentId = some parent)
    (hpos : parent.position = some ppos)
    (hfresh : ∀ n ∈ branches, s.nodes.lookup (jsKey n.id) = none)
    (hnodup : (branches.map (fun n => jsKey n.id)).Nodup) :
    addBranchNodes s parentId branches
      = some { s with
          nodes := s.nodes ++ branches.enum.map (fun q =>
            (jsKey q.2.id,
             { q.2 with
                 position := some ⟨ppos.x + 700,
                   ppos.y - ((branches.length : ℚ) - 1) * 160 / 2 + (q.1 : ℚ) * 160⟩
                 size := some (calculateNodeSize q.2) })),
          connections := s.connections
            ++ branches.map (fun n => (⟨parentId, jsKey n.id⟩ : Connection)) } := by
  unfold addBranchNodes
  rw [hp]
  simp only [Option.some_bind, hpos]
  have hfr2 : ∀ n ∈ branches.enum.map (fun q =>
      ({ q.2 with
          position := some ⟨ppos.x + 700,
            ppos.y - ((branches.length : ℚ) - 1) * 160 / 2 + (q.1 : ℚ) * 160⟩
          size := some (calculateNodeSize q.2) } : JSNode)),
      s.nodes.lookup (jsKey n.id) = none := by
    intro n hn
    rw [List.mem_map] at hn
    obtain ⟨q, hq, rfl⟩ := hn
    have hmem : q.2 ∈ branches := by
      have := List.mem_map_of_mem Prod.snd hq
      rwa [List.enum_map_snd] at this
    exact hfresh q.2 hmem
  have hnd2 : ((branches.enum.map (fun q =>
      ({ q.2 with
          position := some ⟨ppos.x + 700,
            ppos.y - ((branches.length : ℚ) - 1) * 160 / 2 + (q.1 : ℚ) * 160⟩
          size := some (calculateNodeSize q.2) } : JSNode))).map
        (fun n => jsKey n.id)).Nodup := by
    rw [List.map_map]
    have : ((fun n => jsKey n.id) ∘ (fun (q : ℕ × JSNode) =>
        ({ q.2 with
            position := some ⟨ppos.x + 700,
              ppos.y - ((branches.length : ℚ) - 1) * 160 / 2 + (q.1 : ℚ) * 160⟩
            size := some (calculateNodeSize q.2) } : JSNode)))
        = (fun n => jsKey n.id) ∘ (Prod.snd (α := ℕ) (β := JSNode)) := rfl
    rw [this, ← List.map_map, List.enum_map_snd]
    exact hnodup
  rw [foldl_mapSet_append _ _ hfr2 hnd2]
  have hc : (List.map (fun n => ({ source := parentId, target := jsKey n.id } : Connection))
        branches)
      = List.map (fun q : ℕ × JSNode =>
          ({ source := parentId, target := jsKey q.2.id } : Connection)) branches.enum := by
    conv_lhs => rw [← List.enum_map_snd branches]
    rw [List.map_map]
    rfl
  rw [hc]
  simp only [List.map_map, Option.some.injEq]
  rfl


/-- C4.  Branch layout: for a present parent and a non-empty list of `k`
branch nodes with fresh, distinct ids, `addBranchNodes` appends child `i`
(0-based) at `x = parent.x + 700`, `y = parent.y - (k-1)·160/2 + i·160`
(the column is centered on the parent's `y`; for `k = 3` the middle child
sits exactly at `parent.y`), together with exactly `k` parent→child
connections in order. -/
theorem branch_layout (s : StoreState) (parentId : String) (parent : JSNode)
    (ppos : Pos) (branches : List JSNode)
    (hp : s.nodes.lookup parentId = some parent)
    (hpos : parent.position = some ppos)
    (hfresh : ∀ n ∈ branches, s.nodes.lookup (jsKey n.id) = none)
    (hnodup : (branches.map (fun n => jsKey n.id)).Nodup)
    (_hne : branches ≠ []) :
    addBranchNodes s parentId branches
      = some { s with
          nodes := s.nodes ++ branches.enum.map (fun q =>
            (jsKey q.2.id,
             { q.2 with
                 position := some ⟨ppos.x + 700,
                   ppos.y - ((branches.length : ℚ) - 1) * 160 / 2 + (q.1 : ℚ) * 160⟩
                 size := some (calculateNodeSize q.2) })),
          connections := s.connections
            ++ branches.map (fun n => (⟨parentId, jsKey n.id⟩ : Connection)) } :=
  addBranchNodes_spec s parentId parent ppos branches hp hpos hfresh hnodup

/-- Witness for `branch_layout`: the spec scenario with root `R` at
`(500, 300)` and branches `A`, `B`, `C`; the children land at
`(1200, 140)`, `(1200, 300)`, `(1200, 460)` with connections
`R→A, R→B, R→C`. -/
theorem branch_layout_witness :
    (sR.nodes.lookup "R" = some rootR ∧ rootR.position = some (⟨500, 300⟩ : Pos)) ∧
    addBranchNodes sR "R" [branchA, branchB, branchC]
      = some { sR with
          nodes := [("R", rootR),
            ("A", { branchA with position := some ⟨1200, 140⟩, size := some .sm }),
            ("B", { branchB with position := some ⟨1200, 300⟩, size := some .sm }),
            ("C", { branchC with position := some ⟨1200, 460⟩, size := some .sm })],
          connections := [⟨"R", "A"⟩, ⟨"R", "B"⟩, ⟨"R", "C"⟩] } := by
  refine ⟨⟨by decide, by decide⟩, ?_⟩
  rw [branch_layout sR "R" rootR ⟨500, 300⟩ [branchA, branchB, branchC]
    (by decide) (by decide) (by decide) (by decide) (by decide)]
  norm_num [sR, rootR, branchA, branchB, branchC, List.enum, List.enumFrom, jsKey,
    calculateNodeSize, optLen]
  decide

/-- The source's size computation agrees with the amended spec rule. -/
lemma calculateNodeSize_eq_rule (n : JSNode) :
    calculateNodeSize n
      = sizeClassOfLengths (optLen n.content) (optLen n.question)
          (if n.type = some NodeType.branch then optLen n.description else 0) := rfl

/-- C7 (amended).  Every branch node created by `addBranchNodes` is
assigned the size class obtained by applying the fixed thresholds
(>400 → xl, >300 → lg, >200 → md, else sm) to the *maximum* of its content
length, question length and (branch) description length — not to the
content length alone. -/
theorem branch_size_classes (s : StoreState) (parentId : String) (parent : JSNode)
    (ppos : Pos) (branches : List JSNode)
    (hp : s.nodes.lookup parentId = some parent)
    (hpos : parent.position = some ppos)
    (hfresh : ∀ n ∈ branches, s.nodes.lookup (jsKey n.id) = none)
    (hnodup : (branches.map (fun n => jsKey n.id)).Nodup) :
    (addBranchNodes s parentId branches).map (fun s2 => s2.nodes.map (fun p => p.2.size))
      = some (s.nodes.map (fun p => p.2.size)
          ++ branches.map (fun n =>
            some (sizeClassOfLengths (optLen n.content) (optLen n.question)
              (if n.type = some NodeType.branch then optLen n.description else 0)))) := by
  rw [addBranchNodes_spec s parentId parent ppos branches hp hpos hfresh hnodup]
  have hsz : (List.map (fun n : JSNode =>
        some (sizeClassOfLengths (optLen n.content) (optLen n.question)
          (if n.type = some NodeType.branch then optLen n.description else 0)))
        branches)
      = List.map (fun q : ℕ × JSNode => some (calculateNodeSize q.2)) branches.enum := by
    conv_lhs => rw [← List.enum_map_snd branches]
    rw [List.map_map]
    rfl
  simp only [Option.map_some', List.map_append, List.map_map, Option.some.injEq, hsz]
  rfl

set_option maxRecDepth 8000 in
/-- Counterexample to C7 as stated: a branch node with empty content and a
201-character question receives size class `md` from the code, while the
claim's content-length rule would give `sm`. -/
theorem branch_size_counterexample :
    (addBranchNodes sR "R" [questionOnlyNode]).bind
        (fun s2 => (s2.nodes.lookup "n1").bind (fun n => n.size)) = some NodeSize.md ∧
    questionOnlyNode.content = some "" ∧ NodeSize.md ≠ NodeSize.sm := by
  refine ⟨by decide, by decide, by decide⟩

/-- Witness for `branch_size_classes` on the scenario store with the
question-driven branch node. -/
theorem branch_size_classes_witness :
    (sR.nodes.lookup "R" = some rootR ∧ rootR.position = some (⟨500, 300⟩ : Pos) ∧
      sR.nodes.lookup "n1" = none) ∧
    (addBranchNodes sR "R" [questionOnlyNode]).map
        (fun s2 => s2.nodes.map (fun p => p.2.size))
      = some (sR.nodes.map (fun p => p.2.size)
          ++ [questionOnlyNode].map (fun n =>
            some (sizeClassOfLengths (optLen n.content) (optLen n.question)
              (if n.type = some NodeType.branch then optLen n.description else 0)))) :=
  ⟨⟨by decide, by decide, by decide⟩,
    branch_size_classes sR "R" rootR ⟨500, 300⟩ [questionOnlyNode]
      (by decide) (by decide) (by decide) (by decide)⟩

/-! ## Theorems: overlap push on expand, gesture exclusion, curve totality -/

/-- C6.  Overlap push on expand: with `X` (`md`, question, so 320×400
expanded box) at `(0,0)` and `Y` (`sm`, 240×140) at `(0,150)` inside `X`'s
expanded bounds, `repositionOverlappingNodes(X, true)` leaves `X` in place
and pushes `Y` (horizontally, to `(400, 150)`, since `|dy| ≤ |dx|` fails),
after which `X`'s expanded box and `Y`'s box no longer intersect. -/
theorem overlap_push_on_expand :
    doNodesOverlapBuf 0 nodeX nodeY = true ∧
    (repositionOverlappingNodes sXY "X" true).nodes
      = [("X", nodeX), ("Y", { nodeY with position := some ⟨400, 150⟩ })] ∧
    doNodesOverlapBuf 0 nodeX { nodeY with position := some ⟨400, 150⟩ } = false := by
  refine ⟨?_, ?_, ?_⟩
  · simp [doNodesOverlapBuf, nodeX, nodeY, getNodeSize, NODE_SIZES, posOf, strTruthy]
    norm_num
  · simp [repositionOverlappingNodes, sXY, nodeX, nodeY, getNodeSize, NODE_SIZES,
      posOf, strTruthy, mapSet, jsKey, List.filter_cons]
    norm_num [List.filter_cons, mapSet]
    decide
  · simp [doNodesOverlapBuf, nodeX, nodeY, getNodeSize, NODE_SIZES, posOf, strTruthy]
    norm_num

/-- C9 (amended).  While `draggingNodeId` holds a (non-empty) node id, the
pan handler, the wheel-zoom handler and the canvas drag gesture handler all
leave the canvas state untouched; the pinch handler carries no such guard
(see the counterexample) and may change the transform. -/
theorem drag_pan_zoom_exclusion (rect : Rect) (c : CanvasState) (d : String)
    (e : WheelEvent) (dx dy mx my : ℚ) (targetIsNode first : Bool) (memo : DragMemo)
    (hd : c.draggingNodeId = some d) (hne : d ≠ "") :
    handlePan c dx dy = c ∧
    handleWheelZoom rect c e = c ∧
    (onDragGesture c targetIsNode first mx my memo).1 = c ∧
    (onDragGesture c targetIsNode first mx my memo).2 = memo := by
  have ht : strTruthy c.draggingNodeId = true := by
    rw [hd]
    simpa [strTruthy] using hne
  refine ⟨?_, ?_, ?_, ?_⟩ <;>
    simp [handlePan, handleWheelZoom, onDragGesture, ht]

/-- Counterexample to C9 as stated: while `draggingNodeId = "node-1"`, the
pinch gesture handler still rescales the transform (the source's `onPinch`
has no dragging guard), so not every pan/zoom gesture handler no-ops. -/
theorem pinch_guard_counterexample :
    (⟨⟨0, 0, 1⟩, some "node-1"⟩ : CanvasState).draggingNodeId = some "node-1" ∧
    (onPinchGesture ⟨0, 0, 800, 600⟩ ⟨⟨0, 0, 1⟩, some "node-1"⟩ (3/4) 100 100).view.scale
      ≠ (⟨⟨0, 0, 1⟩, some "node-1"⟩ : CanvasState).view.scale := by
  refine ⟨rfl, ?_⟩
  norm_num [onPinchGesture, handleZoom]

/-- Witness for `drag_pan_zoom_exclusion` at a concrete dragging state. -/
theorem drag_pan_zoom_exclusion_witness :
    ((⟨⟨3, 4, 1⟩, some "node-1"⟩ : CanvasState).draggingNodeId = some "node-1"
      ∧ "node-1" ≠ "") ∧
    (handlePan ⟨⟨3, 4, 1⟩, some "node-1"⟩ 7 9 = ⟨⟨3, 4, 1⟩, some "node-1"⟩ ∧
     handleWheelZoom ⟨0, 0, 800, 600⟩ ⟨⟨3, 4, 1⟩, some "node-1"⟩
        ⟨0, -10, 50, 60, false, false⟩ = ⟨⟨3, 4, 1⟩, some "node-1"⟩ ∧
     (onDragGesture ⟨⟨3, 4, 1⟩, some "node-1"⟩ false true 5 6 ⟨0, 0⟩).1
        = ⟨⟨3, 4, 1⟩, some "node-1"⟩ ∧
     (onDragGesture ⟨⟨3, 4, 1⟩, some "node-1"⟩ false true 5 6 ⟨0, 0⟩).2 = ⟨0, 0⟩) :=
  ⟨⟨rfl, by decide⟩,
    drag_pan_zoom_exclusion ⟨0, 0, 800, 600⟩ ⟨⟨3, 4, 1⟩, some "node-1"⟩ "node-1"
      ⟨0, -10, 50, 60, false, false⟩ 7 9 5 6 false true ⟨0, 0⟩ rfl (by decide)⟩

/-- The capped inverse-distance curvature factor is a finite number for
any nonnegative squared distance and positive numerator. -/
lemma curveFactor_num (cap k d : ℚ) (hd : 0 ≤ d) (hk : 0 < k) :
    ∃ q, jsMin (.num cap) (jsDiv (.num k) (jsSqrt (.num d))) = .num q := by
  have h1 : jsSqrt (.num d) = .num (Rat.sqrt d) := by
    simp [jsSqrt, not_lt.mpr hd]
  by_cases h0 : Rat.sqrt d = 0
  · exact ⟨cap, by simp [h1, jsDiv, h0, hk.ne', hk, jsMin]⟩
  · exact ⟨min cap (k / Rat.sqrt d), by simp [h1, jsDiv, h0, jsMin]⟩

/-- The curvature factor and both control-point combinations built from it
are finite numbers. -/
lemma factor_controls_finite (cap k d mx my dx dy : ℚ) (hd : 0 ≤ d) (hk : 0 < k) :
    (jsMin (.num cap) (jsDiv (.num k) (jsSqrt (.num d)))).isFinite = true ∧
    (jsSub (.num mx)
      (jsMul (.num dy) (jsMin (.num cap) (jsDiv (.num k) (jsSqrt (.num d)))))).isFinite
        = true ∧
    (jsAdd (.num my)
      (jsMul (.num dx) (jsMin (.num cap) (jsDiv (.num k) (jsSqrt (.num d)))))).isFinite
        = true := by
  obtain ⟨q, hq⟩ := curveFactor_num cap k d hd hk
  rw [hq]
  simp [jsSub, jsNeg, jsAdd, jsMul, JSNum.isFinite]

/-- C10.  Connection-curve totality: for every pair of anchor positions —
including coincident ones — both curve computations produce a finite
curvature factor and finite control-point coordinates; the `30/0 = ∞` (or
`40/0 = ∞`) of a zero-distance pair is absorbed by the `Math.min` cap and
never reaches the emitted path. -/
theorem connection_curve_total (sx sy ex ey : ℚ) (sourceType targetType : NodeType)
    (ax ay bx by2 : ℚ) :
    ((nodeConnectionCurve sx sy ex ey).factor.isFinite = true ∧
     (nodeConnectionCurve sx sy ex ey).controlX.isFinite = true ∧
     (nodeConnectionCurve sx sy ex ey).controlY.isFinite = true) ∧
    ((connectionLineCurve sourceType targetType ax ay bx by2).factor.isFinite = true ∧
     (connectionLineCurve sourceType targetType ax ay bx by2).controlX.isFinite = true ∧
     (connectionLineCurve sourceType targetType ax ay bx by2).controlY.isFinite = true) :=
  ⟨factor_controls_finite _ _ _ _ _ _ _
      (add_nonneg (sq_nonneg (ex - sx)) (sq_nonneg (ey - sy))) (by norm_num),
   factor_controls_finite _ _ _ _ _ _ _
      (add_nonneg (mul_self_nonneg _) (mul_self_nonneg _)) (by norm_num)⟩

/-! ## Theorems: collision resolution for two nodes -/

/-- Node widths from the size table are positive. -/
lemma width_pos (n : JSNode) : 0 < (getNodeSize n).width := by
  have h : (getNodeSize n).width = (NODE_SIZES (n.size.getD (calculateNodeSize n))).width := rfl
  rw [h]
  cases n.size.getD (calculateNodeSize n) <;> norm_num [NODE_SIZES]

/-- Node heights from the size table are positive. -/
lemma height_pos (n : JSNode) : 0 < (getNodeSize n).height := by
  have h : (getNodeSize n).height
      = if strTruthy n.question then (NODE_SIZES (n.size.getD (calculateNodeSize n))).maxHeight
        else (NODE_SIZES (n.size.getD (calculateNodeSize n))).minHeight := rfl
  rw [h]
  cases n.size.getD (calculateNodeSize n) <;> cases strTruthy n.question <;>
    norm_num [NODE_SIZES]

/-- Pushing the interval centered at `x1` (width `w1`) away from the one
centered at `x2` (width `w2`) by exactly their overlap amount brings the
overlap to exactly zero, provided neither interval contains the other. -/
lemma push_separates (x1 x2 w1 w2 : ℚ) (hw1 : 0 < w1) (hw2 : 0 < w2)
    (hnc1 : ¬(x1 - w1 / 2 ≤ x2 - w2 / 2 ∧ x2 + w2 / 2 ≤ x1 + w1 / 2))
    (hnc2 : ¬(x2 - w2 / 2 ≤ x1 - w1 / 2 ∧ x1 + w1 / 2 ≤ x2 + w2 / 2)) :
    min ((x1 + (if x1 < x2 then (-1 : ℚ) else 1) *
            (min (x1 + w1 / 2) (x2 + w2 / 2) - max (x1 - w1 / 2) (x2 - w2 / 2))) + w1 / 2)
        (x2 + w2 / 2)
      - max ((x1 + (if x1 < x2 then (-1 : ℚ) else 1) *
            (min (x1 + w1 / 2) (x2 + w2 / 2) - max (x1 - w1 / 2) (x2 - w2 / 2))) - w1 / 2)
        (x2 - w2 / 2) = 0 := by
  have hcases : (x1 - w1 / 2 < x2 - w2 / 2 ∧ x1 + w1 / 2 < x2 + w2 / 2) ∨
      (x2 - w2 / 2 < x1 - w1 / 2 ∧ x2 + w2 / 2 < x1 + w1 / 2) := by
    rcases not_and_or.mp hnc1 with h1 | h1 <;> rcases not_and_or.mp hnc2 with h2 | h2 <;>
      push_neg at h1 h2
    · exact absurd h2 (not_lt.mpr h1.le)
    · exact Or.inr ⟨h1, h2⟩
    · exact Or.inl ⟨h2, h1⟩
    · exact absurd h2 (not_lt.mpr h1.le)
  rcases hcases with ⟨hl, hr⟩ | ⟨hl, hr⟩
  · have hx : x1 < x2 := by linarith
    rw [if_pos hx]
    simp only [min_def, max_def]
    split_ifs <;> linarith
  · have hx : ¬ x1 < x2 := not_lt.mpr (by linarith)
    rw [if_neg hx]
    simp only [min_def, max_def]
    split_ifs <;> linarith

/-- Two nonempty intervals whose overlap amount is zero do not strictly
overlap. -/
lemma sep_not_overlap (l1 r1 l2 r2 : ℚ) (h1 : l1 < r1) (h2 : l2 < r2)
    (h0 : min r1 r2 - max l1 l2 = 0) : ¬(l1 < r2 ∧ l2 < r1) := by
  rintro ⟨ha, hb⟩
  rcases min_cases r1 r2 with ⟨hm, hm2⟩ | ⟨hm, hm2⟩ <;>
    rcases max_cases l1 l2 with ⟨hM, hM2⟩ | ⟨hM, hM2⟩ <;> linarith

/-- One unfolding of the collision loop at positive fuel. -/
lemma resolveCollisionsLoop_succ (conns : List Connection) (nodeId : String)
    (fuel : Nat) (nodes : NodeMap) :
    resolveCollisionsLoop conns nodeId (fuel + 1) nodes
      = match nodes.lookup nodeId with
        | none => nodes
        | some movedNode =>
          let res := collisionPass conns nodes nodeId movedNode
          let nodes1 := mapSet nodes nodeId res.1
          if res.2 then resolveCollisionsLoop conns nodeId fuel nodes1
          else nodes1 := rfl

/-- C3 (amended).  Collision resolution for two overlapping, unconnected
nodes `a` (moved) and `b`: provided neither node's interval along the push
axis (the smaller-overlap axis, vertical on ties) contains the other's,
the resolver pushes `a` exactly once — along that axis only, by exactly
the overlap amount, signed away from `b`'s center — leaving `b` and `a`'s
other coordinate untouched, and afterwards the unbuffered boxes no longer
overlap. -/
theorem collision_resolution_two_nodes
    (conns : List Connection) (aId bId act : String) (dn : Option String)
    (a b : JSNode) (pa pb : Pos) (nodesList : NodeMap)
    (horder : nodesList = [(aId, a), (bId, b)] ∨ nodesList = [(bId, b), (aId, a)])
    (hne : aId ≠ bId) (haid : a.id = some aId) (hbid : b.id = some bId)
    (hpa : a.position = some pa) (hpb : b.position = some pb)
    (hconn : isParentChild conns (some aId) (some bId) = false)
    (hox : overlapX a b > 0) (hoy : overlapY a b > 0)
    (hnc : if overlapX a b < overlapY a b
           then NoContain (boxLeft a) (boxRight a) (boxLeft b) (boxRight b)
           else NoContain (boxTop a) (boxBottom a) (boxTop b) (boxBottom b)) :
    (resolveCollisionsForNode ⟨nodesList, conns, act, dn⟩ aId).nodes
        = mapSet nodesList aId { a with position := some (pushedPos a b) } ∧
    doNodesOverlapBuf 0 { a with position := some (pushedPos a b) } b = false := by
  have hba : (a.id == some aId) = true := by rw [haid]; simp
  have hbb : (b.id == some aId) = false := by
    rw [hbid]
    simpa using Ne.symm hne
  have hpc : isParentChild conns a.id b.id = false := by rw [haid, hbid]; exact hconn
  have hw1 := width_pos a
  have hw2 := width_pos b
  have hh1 := height_pos a
  have hh2 := height_pos b
  -- the single pass from the original position pushes `a` once
  have hpass1 : ∀ l : NodeMap, l = [(aId, a), (bId, b)] ∨ l = [(bId, b), (aId, a)] →
      collisionPass conns l aId a
        = ({ a with position := some (pushedPos a b) }, true) := by
    rintro l (rfl | rfl) <;>
      · unfold collisionPass
        simp only [List.foldl_cons, List.foldl_nil, hba, hbb, hpc, eq_self_iff_true,
          if_true, Bool.false_eq_true, if_false]
        rw [if_pos (⟨hox, hoy⟩ : overlapX a b > 0 ∧ overlapY a b > 0)]
        simp only [pushedPos]
        by_cases hxy : overlapX a b < overlapY a b
        · rw [if_pos hxy, if_pos hxy]
        · rw [if_neg hxy, if_neg hxy]
  -- push-axis overlap is exactly zero after the push
  have hzmain : (overlapX a b < overlapY a b →
        overlapX { a with position := some (pushedPos a b) } b = 0) ∧
      (¬ overlapX a b < overlapY a b →
        overlapY { a with position := some (pushedPos a b) } b = 0) := by
    constructor
    · intro hxy
      rw [if_pos hxy] at hnc
      have hpx : (pushedPos a b).x
          = (posOf a).x + (if (posOf a).x < (posOf b).x then (-1 : ℚ) else 1) * overlapX a b := by
        simp only [pushedPos]
        rw [if_pos hxy]
      have key := push_separates (posOf a).x (posOf b).x
        (getNodeSize a).width (getNodeSize b).width hw1 hw2 hnc.1 hnc.2
      show min (boxRight { a with position := some (pushedPos a b) }) (boxRight b)
          - max (boxLeft { a with position := some (pushedPos a b) }) (boxLeft b) = 0
      have e1 : boxRight { a with position := some (pushedPos a b) }
          = (pushedPos a b).x + (getNodeSize a).width / 2 := rfl
      have e2 : boxLeft { a with position := some (pushedPos a b) }
          = (pushedPos a b).x - (getNodeSize a).width / 2 := rfl
      rw [e1, e2, hpx]
      exact key
    · intro hxy
      rw [if_neg hxy] at hnc
      have hpy : (pushedPos a b).y
          = (posOf a).y + (if (posOf a).y < (posOf b).y then (-1 : ℚ) else 1) * overlapY a b := by
        simp only [pushedPos]
        rw [if_neg hxy]
      have key := push_separates (posOf a).y (posOf b).y
        (getNodeSize a).height (getNodeSize b).height hh1 hh2 hnc.1 hnc.2
      show min (boxBottom { a with position := some (pushedPos a b) }) (boxBottom b)
          - max (boxTop { a with position := some (pushedPos a b) }) (boxTop b) = 0
      have e1 : boxBottom { a with position := some (pushedPos a b) }
          = (pushedPos a b).y + (getNodeSize a).height / 2 := rfl
      have e2 : boxTop { a with position := some (pushedPos a b) }
          = (pushedPos a b).y - (getNodeSize a).height / 2 := rfl
      rw [e1, e2, hpy]
      exact key
  -- hence the second pass sees no overlap
  have hno2 : ¬(overlapX { a with position := some (pushedPos a b) } b > 0 ∧
      overlapY { a with position := some (pushedPos a b) } b > 0) := by
    rintro ⟨hgx, hgy⟩
    by_cases hxy : overlapX a b < overlapY a b
    · rw [hzmain.1 hxy] at hgx
      exact lt_irrefl 0 hgx
    · rw [hzmain.2 hxy] at hgy
      exact lt_irrefl 0 hgy
  -- and the unbuffered boxes no longer strictly overlap
  have hfalse : doNodesOverlapBuf 0 { a with position := some (pushedPos a b) } b = false := by
    have hw1P : (0 : ℚ) < (getNodeSize { a with position := some (pushedPos a b) }).width := hw1
    have hh1P : (0 : ℚ) < (getNodeSize { a with position := some (pushedPos a b) }).height := hh1
    simp only [doNodesOverlapBuf, decide_eq_false_iff_not]
    rintro ⟨h1, h2, h3, h4⟩
    by_cases hxy : overlapX a b < overlapY a b
    · have hzx' : min ((posOf { a with position := some (pushedPos a b) }).x
            + (getNodeSize { a with position := some (pushedPos a b) }).width / 2)
          ((posOf b).x + (getNodeSize b).width / 2)
          - max ((posOf { a with position := some (pushedPos a b) }).x
            - (getNodeSize { a with position := some (pushedPos a b) }).width / 2)
          ((posOf b).x - (getNodeSize b).width / 2) = 0 := hzmain.1 hxy
      rcases min_cases ((posOf { a with position := some (pushedPos a b) }).x
            + (getNodeSize { a with position := some (pushedPos a b) }).width / 2)
          ((posOf b).x + (getNodeSize b).width / 2) with ⟨hm, hm2⟩ | ⟨hm, hm2⟩ <;>
        rcases max_cases ((posOf { a with position := some (pushedPos a b) }).x
            - (getNodeSize { a with position := some (pushedPos a b) }).width / 2)
          ((posOf b).x - (getNodeSize b).width / 2) with ⟨hM, hM2⟩ | ⟨hM, hM2⟩ <;>
        · rw [hm, hM] at hzx'
          linarith
    · have hzy' : min ((posOf { a with position := some (pushedPos a b) }).y
            + (getNodeSize { a with position := some (pushedPos a b) }).height / 2)
          ((posOf b).y + (getNodeSize b).height / 2)
          - max ((posOf { a with position := some (pushedPos a b) }).y
            - (getNodeSize { a with position := some (pushedPos a b) }).height / 2)
          ((posOf b).y - (getNodeSize b).height / 2) = 0 := hzmain.2 hxy
      rcases min_cases ((posOf { a with position := some (pushedPos a b) }).y
            + (getNodeSize { a with position := some (pushedPos a b) }).height / 2)
          ((posOf b).y + (getNodeSize b).height / 2) with ⟨hm, hm2⟩ | ⟨hm, hm2⟩ <;>
        rcases max_cases ((posOf { a with position := some (pushedPos a b) }).y
            - (getNodeSize { a with position := some (pushedPos a b) }).height / 2)
          ((posOf b).y - (getNodeSize b).height / 2) with ⟨hM, hM2⟩ | ⟨hM, hM2⟩ <;>
        · rw [hm, hM] at hzy'
          linarith
  -- the second pass leaves everything unchanged
  have hpass2 : ∀ l : NodeMap,
      l = [(aId, { a with position := some (pushedPos a b) }), (bId, b)] ∨
      l = [(bId, b), (aId, { a with position := some (pushedPos a b) })] →
      collisionPass conns l aId { a with position := some (pushedPos a b) }
        = ({ a with position := some (pushedPos a b) }, false) := by
    rintro l (rfl | rfl) <;>
      · unfold collisionPass
        simp only [List.foldl_cons, List.foldl_nil, hba, hbb, hpc, eq_self_iff_true,
          if_true, Bool.false_eq_true, if_false]
        rw [if_neg hno2]
  -- list bookkeeping
  have hlk1 : ∀ u : JSNode, List.lookup aId ([(aId, u), (bId, b)] : NodeMap) = some u := by
    intro u
    simp [List.lookup_cons]
  have hlk2 : ∀ u : JSNode, List.lookup aId ([(bId, b), (aId, u)] : NodeMap) = some u := by
    intro u
    simp [List.lookup_cons, beq_false_of_ne hne]
  have hms1 : ∀ u v : JSNode, mapSet [(aId, u), (bId, b)] aId v = [(aId, v), (bId, b)] := by
    intro u v
    simp [mapSet, beq_false_of_ne (Ne.symm hne)]
    exact fun h => absurd h (Ne.symm hne)
  have hms2 : ∀ u v : JSNode, mapSet [(bId, b), (aId, u)] aId v = [(bId, b), (aId, v)] := by
    intro u v
    simp [mapSet, beq_false_of_ne (Ne.symm hne)]
    exact fun h => absurd h (Ne.symm hne)
  rcases horder with rfl | rfl
  · refine ⟨?_, hfalse⟩
    have h0 : (resolveCollisionsForNode ⟨[(aId, a), (bId, b)], conns, act, dn⟩ aId).nodes
        = resolveCollisionsLoop conns aId 10 [(aId, a), (bId, b)] := rfl
    rw [h0, show (10 : ℕ) = 9 + 1 from rfl, resolveCollisionsLoop_succ]
    simp only [hlk1, hpass1 _ (Or.inl rfl), hms1]
    rw [show (9 : ℕ) = 8 + 1 from rfl, resolveCollisionsLoop_succ]
    simp only [hlk1, hpass2 _ (Or.inl rfl), hms1]
    simp
  · refine ⟨?_, hfalse⟩
    have h0 : (resolveCollisionsForNode ⟨[(bId, b), (aId, a)], conns, act, dn⟩ aId).nodes
        = resolveCollisionsLoop conns aId 10 [(bId, b), (aId, a)] := rfl
    rw [h0, show (10 : ℕ) = 9 + 1 from rfl, resolveCollisionsLoop_succ]
    simp only [hlk2, hpass1 _ (Or.inr rfl), hms2]
    rw [show (9 : ℕ) = 8 + 1 from rfl, resolveCollisionsLoop_succ]
    simp only [hlk2, hpass2 _ (Or.inr rfl), hms2]
    simp

/-- Counterexample to C3 as stated: `aC3` (480 wide) horizontally strictly
contains `bC3` (240 wide), the horizontal overlap (240) is the smaller one
(vertical is 320), and resolving pushes `a` twice — to `x = -350` — not by
exactly the original overlap amount (which would give `x = 0 - 240`). -/
theorem collision_counterexample :
    (overlapX aC3 bC3 = 240 ∧ overlapY aC3 bC3 = 320 ∧
     isParentChild sC3.connections (some "a") (some "b") = false) ∧
    ((resolveCollisionsForNode sC3 "a").nodes.lookup "a").map (fun n => n.position)
      = some (some ⟨-350, 0⟩) ∧
    (some (⟨-350, 0⟩ : Pos) : Option Pos) ≠ some ⟨0 + -1 * 240, 0⟩ := by
  have hoX : overlapX aC3 bC3 = 240 := by
    simp [overlapX, boxLeft, boxRight, posOf, getNodeSize, NODE_SIZES, aC3, bC3, strTruthy]
    norm_num [min_def, max_def]
  have hoY : overlapY aC3 bC3 = 320 := by
    simp [overlapY, boxTop, boxBottom, posOf, getNodeSize, NODE_SIZES, aC3, bC3, strTruthy]
    norm_num [min_def, max_def]
  refine ⟨⟨hoX, hoY, by decide⟩, ?_, by norm_num [Pos.mk.injEq]⟩
  have hp1 : collisionPass [] [("a", aC3), ("b", bC3)] "a" aC3
      = ({ aC3 with position := some ⟨-240, 0⟩ }, true) := by
    unfold collisionPass
    simp only [List.foldl_cons, List.foldl_nil]
    simp [isParentChild, aC3, bC3]
    norm_num [overlapX, overlapY, boxLeft, boxRight, boxTop, boxBottom, posOf,
      getNodeSize, NODE_SIZES, strTruthy, aC3, bC3, min_def, max_def]
    try simp [aC3]
    try norm_num
  have hp2 : collisionPass [] [("a", { aC3 with position := some ⟨-240, 0⟩ }), ("b", bC3)]
        "a" { aC3 with position := some ⟨-240, 0⟩ }
      = ({ aC3 with position := some ⟨-350, 0⟩ }, true) := by
    unfold collisionPass
    simp only [List.foldl_cons, List.foldl_nil]
    simp [isParentChild, aC3, bC3]
    norm_num [overlapX, overlapY, boxLeft, boxRight, boxTop, boxBottom, posOf,
      getNodeSize, NODE_SIZES, strTruthy, aC3, bC3, min_def, max_def]
    try simp [aC3]
    try norm_num
  have hp3 : collisionPass [] [("a", { aC3 with position := some ⟨-350, 0⟩ }), ("b", bC3)]
        "a" { aC3 with position := some ⟨-350, 0⟩ }
      = ({ aC3 with position := some ⟨-350, 0⟩ }, false) := by
    unfold collisionPass
    simp only [List.foldl_cons, List.foldl_nil]
    simp [isParentChild, aC3, bC3]
    norm_num [overlapX, overlapY, boxLeft, boxRight, boxTop, boxBottom, posOf,
      getNodeSize, NODE_SIZES, strTruthy, aC3, bC3, min_def, max_def]
    try simp [aC3]
    try norm_num
  have hlk : ∀ u : JSNode, List.lookup "a" ([("a", u), ("b", bC3)] : NodeMap) = some u := by
    intro u
    simp [List.lookup_cons]
  have hms : ∀ u v : JSNode, mapSet [("a", u), ("b", bC3)] "a" v = [("a", v), ("b", bC3)] := by
    intro u v
    simp [mapSet]
  rw [show (resolveCollisionsForNode sC3 "a").nodes
      = resolveCollisionsLoop [] "a" 10 [("a", aC3), ("b", bC3)] from rfl]
  rw [show (10 : ℕ) = 9 + 1 from rfl, resolveCollisionsLoop_succ]
  simp only [hlk, hp1, hms]
  rw [show (9 : ℕ) = 8 + 1 from rfl, resolveCollisionsLoop_succ]
  simp only [hlk, hp2, hms]
  rw [show (8 : ℕ) = 7 + 1 from rfl, resolveCollisionsLoop_succ]
  simp only [hlk, hp3, hms]
  simp [List.lookup_cons]

/-- Witness for `collision_resolution_two_nodes`: `aW` and `bW` overlap by
20 horizontally and 130 vertically with no horizontal containment, so the
resolver pushes `aW` once along the x axis. -/
theorem collision_resolution_two_nodes_witness :
    (overlapX aW bW = 20 ∧ overlapY aW bW = 130 ∧
     isParentChild sW.connections (some "a") (some "b") = false) ∧
    ((resolveCollisionsForNode sW "a").nodes
        = mapSet sW.nodes "a" { aW with position := some (pushedPos aW bW) } ∧
     doNodesOverlapBuf 0 { aW with position := some (pushedPos aW bW) } bW = false) := by
  have h20 : overlapX aW bW = 20 := by
    simp [overlapX, boxLeft, boxRight, posOf, getNodeSize, NODE_SIZES, aW, bW, strTruthy]
    norm_num [min_def, max_def]
  have h130 : overlapY aW bW = 130 := by
    simp [overlapY, boxTop, boxBottom, posOf, getNodeSize, NODE_SIZES, aW, bW, strTruthy]
    norm_num [min_def, max_def]
  refine ⟨⟨h20, h130, by decide⟩, ?_⟩
  exact collision_resolution_two_nodes [] "a" "b" "a" none aW bW ⟨0, 0⟩ ⟨300, 10⟩
    sW.nodes (Or.inl rfl) (by decide) rfl rfl rfl rfl (by decide)
    (by rw [h20]; norm_num) (by rw [h130]; norm_num)
    (by
      rw [if_pos (show overlapX aW bW < overlapY aW bW by rw [h20, h130]; norm_num)]
      constructor <;>
        · simp [boxLeft, boxRight, posOf, getNodeSize, NODE_SIZES, aW, bW, strTruthy]
          try norm_num)
